import Mathlib

/-!
Shallow embedding of the Treecovery classifier service
(`backend/python/main.py`): a single-endpoint inference pipeline
decode → resize/normalize → forward pass → softmax → arg-max → response.
Floating-point arithmetic of the source is modelled over ℝ (for the
network scores and softmax) and ℚ (for the exact pixel preprocessing).
-/

namespace Treecovery

/-- `NUM_CLASSES = 4` from main.py. -/
def NUM_CLASSES : ℕ := 4

/-- `CLASS_NAMES = ['Scab', 'Black Rot', 'Cedar Rust', 'Healthy']` from main.py. -/
def CLASS_NAMES : List String := ["Scab", "Black Rot", "Cedar Rust", "Healthy"]

/-- Raw encoded image bytes of an upload (`await file.read()`). -/
abbrev Bytes := List ℕ

/-- A decoded 3-channel image, the result of
`Image.open(...).convert("RGB")`: a height × width grid of 8-bit
red/green/blue channel values (each in 0..255). -/
structure RGBImage where
  height : ℕ
  width : ℕ
  pixel : ℕ → ℕ → Fin 3 → ℕ

/-- Per-channel normalization means `[0.485, 0.456, 0.406]` from the
`T.Normalize` call in main.py. -/
def meanC : Fin 3 → ℚ := ![0.485, 0.456, 0.406]

/-- Per-channel normalization standard deviations `[0.229, 0.224, 0.225]`
from the `T.Normalize` call in main.py. -/
def stdC : Fin 3 → ℚ := ![0.229, 0.224, 0.225]

/-- Clamp an integer sampling index into the valid range `[0, n-1]` of a
dimension of size `n` (edge padding of the bilinear filter). -/
def clampIdx (n : ℕ) (i : ℤ) : ℕ := (min i ((n : ℤ) - 1)).toNat

/-- Source-image coordinate sampled for destination index `j` when scaling
a dimension of size `src` to size `dst`, with half-pixel centers:
`(j + 1/2) * src/dst - 1/2`. -/
def srcCoord (src dst : ℕ) (j : ℕ) : ℚ := ((j : ℚ) + 1/2) * src / dst - 1/2

/-- Bilinear sample of `img` at fractional coordinates `(y, x)` in channel
`c`: the weighted average of the four neighbouring pixels, indices clamped
at the image border. -/
def sampleBilinear (img : RGBImage) (y x : ℚ) (c : Fin 3) : ℚ :=
  let y0 : ℤ := ⌊y⌋
  let x0 : ℤ := ⌊x⌋
  let dy : ℚ := y - (y0 : ℚ)
  let dx : ℚ := x - (x0 : ℚ)
  let v : ℤ → ℤ → ℚ := fun a b => (img.pixel (clampIdx img.height a) (clampIdx img.width b) c : ℚ)
  (1 - dy) * (1 - dx) * v y0 x0 + (1 - dy) * dx * v y0 (x0 + 1) +
    dy * (1 - dx) * v (y0 + 1) x0 + dy * dx * v (y0 + 1) (x0 + 1)

/-- Round a sampled value back to an 8-bit channel intensity in 0..255. -/
def roundClamp (q : ℚ) : ℕ := (min 255 (max 0 (round q))).toNat

/-- Bilinear resize of an image to `H × W`, modelling `T.Resize((224, 224))`
applied to the decoded 8-bit image. -/
def resize (img : RGBImage) (H W : ℕ) : RGBImage :=
  ⟨H, W, fun i j c =>
    roundClamp (sampleBilinear img (srcCoord img.height H i) (srcCoord img.width W j) c)⟩

/-- The preprocessed input tensor: a 224 × 224 × 3 grid of exact rational
values (the source's float32 tensor). -/
abbrev Tensor := Fin 224 → Fin 224 → Fin 3 → ℚ

/-- The `T.Compose([Resize, ToTensor, Normalize])` pipeline with explicit
mean/stddev parameters: resize to 224 × 224, scale intensities to `[0,1]`
by dividing by 255, then per-channel normalize `(raw - mean) / std`. -/
def transformWith (m s : Fin 3 → ℚ) (img : RGBImage) : Tensor :=
  fun i j c => (((resize img 224 224).pixel i.1 j.1 c : ℚ) / 255 - m c) / s c

/-- `transform` from main.py: the composed preprocessing with the fixed
mean/stddev triples. -/
def transform : RGBImage → Tensor := transformWith meanC stdC

/-- The loaded network in evaluation mode: a fixed (frozen-weight) function
from the preprocessed tensor to one real score ("logit") per class,
modelling `model(x)` for the `efficientnet_b0` with `NUM_CLASSES` outputs. -/
abbrev Net := Tensor → Fin 4 → ℝ

/-- `torch.softmax(logits, dim=1)[0]`: each probability is
`exp(logit_i) / Σ_j exp(logit_j)`, over ℝ. -/
noncomputable def softmax4 (l : Fin 4 → ℝ) : Fin 4 → ℝ :=
  fun i => Real.exp (l i) / ∑ j : Fin 4, Real.exp (l j)

open Classical in
/-- `int(torch.argmax(probs))` over the four entries: the index of the
first (lowest-index) maximal value, written as the unrolled left-to-right
"keep the current best unless a strictly larger value appears" scan. -/
noncomputable def argmax4 (v : Fin 4 → ℝ) : Fin 4 :=
  if v 0 < v 1 then
    (if v 1 < v 2 then (if v 2 < v 3 then 3 else 2)
     else (if v 1 < v 3 then 3 else 1))
  else
    (if v 0 < v 2 then (if v 2 < v 3 then 3 else 2)
     else (if v 0 < v 3 then 3 else 0))

/-- The per-request failures of the handler body: the decode step raising
(`Image.open` on undecodable bytes) or the class-name lookup raising
(index out of range). -/
inductive PredictError
  | decodeError
  | indexError
deriving DecidableEq

/-- The JSON success payload `{"class": ..., "confidence": ...}`. -/
structure Prediction where
  className : String
  confidence : ℝ

/-- The body of the `/predict` handler, with the shared globals it reads
(`model`, `CLASS_NAMES`, the preprocessing parameters) passed explicitly,
and the image decoding of the PIL library abstracted as a fallible
`decode : Bytes → Option RGBImage`:
decode the upload, preprocess, forward pass, softmax, arg-max, look up the
class name, return name and selected probability. -/
noncomputable def predictWith (net : Net) (classNames : List String) (m s : Fin 3 → ℚ)
    (decode : Bytes → Option RGBImage) (bytes : Bytes) : Except PredictError Prediction :=
  match decode bytes with
  | none => .error .decodeError
  | some image =>
    let x := transformWith m s image
    let probs := softmax4 (net x)
    let idx := argmax4 probs
    match classNames.get? idx.1 with
    | none => .error .indexError
    | some name => .ok ⟨name, probs idx⟩

/-- `predict` from main.py: the handler body run against the process-wide
`CLASS_NAMES` and preprocessing constants. -/
noncomputable def predict (net : Net) (decode : Bytes → Option RGBImage)
    (bytes : Bytes) : Except PredictError Prediction :=
  predictWith net CLASS_NAMES meanC stdC decode bytes

/-- HTTP status the caller observes. The handler body contains no
exception handling, so a `PredictError` escapes the endpoint and the
framework converts the unhandled exception into a 500 response; a normal
return serializes as 200. -/
noncomputable def responseStatus (net : Net) (decode : Bytes → Option RGBImage)
    (bytes : Bytes) : ℕ :=
  match predict net decode bytes with
  | .ok _ => 200
  | .error _ => 500

/-- A status in the client-error class (4xx). -/
def isClientErrorStatus (s : ℕ) : Prop := 400 ≤ s ∧ s < 500

/-- The process-wide state the handler reads: the loaded model, the class
name list and the preprocessing configuration, all initialized at startup. -/
structure ServerState where
  net : Net
  classNames : List String
  m : Fin 3 → ℚ
  s : Fin 3 → ℚ

/-- One request step of the service: the handler reads the shared state,
writes none of it, and produces the per-request result. -/
noncomputable def handleRequest (st : ServerState) (decode : Bytes → Option RGBImage)
    (bytes : Bytes) : ServerState × Except PredictError Prediction :=
  (st, predictWith st.net st.classNames st.m st.s decode bytes)

/-- Startup failure: `model.load_state_dict(state)` raising on a shape
mismatch between the parameter file and the configured class count. -/
inductive StartupError
  | shapeMismatch
deriving DecidableEq

/-- The serialized parameter file `model.pth`: its final (classifier) layer
width, and the frozen forward function those weights denote when they fit
the architecture. -/
structure StateDict where
  finalWidth : ℕ
  net : Net

/-- Startup from main.py: `timm.create_model(..., num_classes=NUM_CLASSES)`
fixes the architecture's output width at `NUM_CLASSES`, and the strict
`model.load_state_dict(state)` raises when the loaded final layer width
disagrees with it; on success the frozen network is available. -/
def startup (sd : StateDict) : Except StartupError Net :=
  if sd.finalWidth = NUM_CLASSES then .ok sd.net else .error .shapeMismatch

/-- Request dispatch given the startup outcome: a process whose startup
raised never reaches the point of serving, so no request gets any
response; otherwise requests run against the loaded network. -/
noncomputable def serveRequest (st : Except StartupError Net)
    (decode : Bytes → Option RGBImage) (bytes : Bytes) :
    Option (Except PredictError Prediction) :=
  match st with
  | .error _ => none
  | .ok net => some (predict net decode bytes)

/-- The synthetic logit vector `[0.1, 5.0, 0.2, 0.3]` of the spec's
arg-max test. -/
noncomputable def logitsEx : Fin 4 → ℝ := ![0.1, 5.0, 0.2, 0.3]

/-- The softmax probability vector computed by the handler for a decoded
image (`torch.softmax(model(transform(image)...), dim=1)[0]`). -/
noncomputable def probsOf (net : Net) (img : RGBImage) : Fin 4 → ℝ :=
  softmax4 (net (transform img))

/-- The class name looked up for a selected index. -/
def classNameAt (i : Fin 4) : String := CLASS_NAMES.get ⟨i.1, i.isLt⟩

/-- A single-pixel solid-color image. -/
def solidOnePixel (v : Fin 3 → ℕ) : RGBImage := ⟨1, 1, fun _ _ c => v c⟩

/-- A concrete decoded image: one black pixel. -/
def img0 : RGBImage := ⟨1, 1, fun _ _ _ => 0⟩

/-- A concrete frozen network assigning every class the same score. -/
noncomputable def net0 : Net := fun _ _ => 0

/-- A decoder on which every byte sequence decodes to `img0`. -/
def decodeAlways : Bytes → Option RGBImage := fun _ => some img0

/-- A decoder on which no byte sequence is a decodable image. -/
def decodeNever : Bytes → Option RGBImage := fun _ => none

/-- A concrete solid gray color. -/
def vGray : Fin 3 → ℕ := fun _ => 100

/-- A concrete parameter file whose final layer width is 5, not 4. -/
noncomputable def sd5 : StateDict := ⟨5, net0⟩

/-- The concrete process-wide state built from the examples above. -/
noncomputable def state0 : ServerState := ⟨net0, CLASS_NAMES, meanC, stdC⟩

/-! Helper lemmas about the softmax and arg-max steps. -/

/-- The softmax denominator is positive. -/
theorem sumExp_pos (l : Fin 4 → ℝ) : 0 < ∑ j : Fin 4, Real.exp (l j) :=
  Finset.sum_pos (fun j _ => Real.exp_pos (l j)) Finset.univ_nonempty

/-- Each softmax probability is nonnegative. -/
theorem softmax4_nonneg (l : Fin 4 → ℝ) (i : Fin 4) : 0 ≤ softmax4 l i :=
  div_nonneg (Real.exp_pos (l i)).le (sumExp_pos l).le

/-- Each softmax probability is at most one. -/
theorem softmax4_le_one (l : Fin 4 → ℝ) (i : Fin 4) : softmax4 l i ≤ 1 := by
  unfold softmax4
  rw [div_le_one (sumExp_pos l)]
  exact Finset.single_le_sum (fun j _ => (Real.exp_pos (l j)).le) (Finset.mem_univ i)

/-- Softmax preserves the strict order of the logits. -/
theorem softmax4_lt_iff (l : Fin 4 → ℝ) (i j : Fin 4) :
    softmax4 l i < softmax4 l j ↔ l i < l j := by
  unfold softmax4
  rw [div_lt_div_iff_of_pos_right (sumExp_pos l)]
  exact Real.exp_lt_exp

/-- Arg-max of the softmax probabilities is arg-max of the logits. -/
theorem argmax4_softmax (l : Fin 4 → ℝ) : argmax4 (softmax4 l) = argmax4 l := by
  unfold argmax4
  simp only [softmax4_lt_iff]

/-- Case split over the four indices. -/
theorem fin4_elim {P : Fin 4 → Prop} (h0 : P 0) (h1 : P 1) (h2 : P 2) (h3 : P 3)
    (i : Fin 4) : P i := by
  rcases i with ⟨iv, hi⟩
  interval_cases iv
  · exact h0
  · exact h1
  · exact h2
  · exact h3

/-- The value at the selected index dominates all four entries. -/
theorem argmax4_isMax_all (v : Fin 4 → ℝ) :
    v 0 ≤ v (argmax4 v) ∧ v 1 ≤ v (argmax4 v) ∧ v 2 ≤ v (argmax4 v) ∧ v 3 ≤ v (argmax4 v) := by
  unfold argmax4
  split_ifs <;> refine ⟨?_, ?_, ?_, ?_⟩ <;> linarith

/-- The selected value is a maximum of the vector. -/
theorem argmax4_isMax (v : Fin 4 → ℝ) (i : Fin 4) : v i ≤ v (argmax4 v) := by
  obtain ⟨h0, h1, h2, h3⟩ := argmax4_isMax_all v
  exact fin4_elim (P := fun j => v j ≤ v (argmax4 v)) h0 h1 h2 h3 i

/-- Ties are broken towards the lowest index: every entry strictly before
the selected index is strictly below the selected value, index by index. -/
theorem argmax4_first_all (v : Fin 4 → ℝ) :
    ((0 : Fin 4) < argmax4 v → v 0 < v (argmax4 v)) ∧
    ((1 : Fin 4) < argmax4 v → v 1 < v (argmax4 v)) ∧
    ((2 : Fin 4) < argmax4 v → v 2 < v (argmax4 v)) ∧
    ((3 : Fin 4) < argmax4 v → v 3 < v (argmax4 v)) := by
  unfold argmax4
  split_ifs <;>
    refine ⟨fun hj => ?_, fun hj => ?_, fun hj => ?_, fun hj => ?_⟩ <;>
    first
      | linarith
      | exact absurd hj (by decide)

/-- Ties are broken towards the lowest index. -/
theorem argmax4_first (v : Fin 4 → ℝ) (j : Fin 4) (hj : j < argmax4 v) :
    v j < v (argmax4 v) := by
  obtain ⟨h0, h1, h2, h3⟩ := argmax4_first_all v
  exact fin4_elim (P := fun k => k < argmax4 v → v k < v (argmax4 v)) h0 h1 h2 h3 j hj

/-- The softmax probabilities sum to one. -/
theorem softmax4_sum (l : Fin 4 → ℝ) : ∑ i : Fin 4, softmax4 l i = 1 := by
  unfold softmax4
  rw [← Finset.sum_div, div_self (ne_of_gt (sumExp_pos l))]

/-- Arg-max of the synthetic logits is index 1. -/
theorem argmax4_logitsEx : argmax4 logitsEx = 1 := by
  have e0 : logitsEx 0 = 0.1 := rfl
  have e1 : logitsEx 1 = 5.0 := rfl
  have e2 : logitsEx 2 = 0.2 := rfl
  have e3 : logitsEx 3 = 0.3 := rfl
  unfold argmax4
  rw [e0, e1, e2, e3]
  norm_num

/-- Every looked-up class name is an element of `CLASS_NAMES`. -/
theorem classNameAt_mem (i : Fin 4) : classNameAt i ∈ CLASS_NAMES :=
  List.get_mem CLASS_NAMES i.1 i.isLt

/-- When the upload decodes, the handler returns the class name at the
arg-max index of the softmax probabilities together with that probability. -/
theorem predict_some (net : Net) (decode : Bytes → Option RGBImage) (bytes : Bytes)
    (img : RGBImage) (h : decode bytes = some img) :
    predict net decode bytes =
      .ok ⟨classNameAt (argmax4 (probsOf net img)),
           probsOf net img (argmax4 (probsOf net img))⟩ := by
  unfold predict predictWith probsOf transform
  simp only [h]
  rw [List.get?_eq_get (l := CLASS_NAMES)
    ((argmax4 (softmax4 (net (transformWith meanC stdC img)))).isLt)]
  rfl


/-- A bilinear sample of a solid one-pixel image is the pixel's value: all
four clamped neighbour lookups return the same value and the four weights
sum to one. -/
theorem sampleBilinear_solid (v : Fin 3 → ℕ) (y x : ℚ) (c : Fin 3) :
    sampleBilinear (solidOnePixel v) y x c = (v c : ℚ) := by
  simp only [sampleBilinear, solidOnePixel]
  ring

/-- Rounding an in-range 8-bit intensity back to 8 bits is the identity. -/
theorem roundClamp_natCast (n : ℕ) (hn : n ≤ 255) : roundClamp (n : ℚ) = n := by
  unfold roundClamp
  rw [round_natCast]
  omega

/-! The claims. -/

/-- C1: for every valid image input (any byte sequence the decoder accepts,
whatever the original color mode converted to RGB), `predict` returns a
label that is an element of `CLASS_NAMES` and a confidence in `[0, 1]`. -/
theorem claim_C1_valid_image_label_and_confidence (net : Net)
    (decode : Bytes → Option RGBImage) (bytes : Bytes) (img : RGBImage)
    (h : decode bytes = some img) :
    ∃ p : Prediction, predict net decode bytes = .ok p ∧
      p.className ∈ CLASS_NAMES ∧ 0 ≤ p.confidence ∧ p.confidence ≤ 1 :=
  ⟨_, predict_some net decode bytes img h, classNameAt_mem _,
    softmax4_nonneg _ _, softmax4_le_one _ _⟩

/-- Witness for C1 at a concrete decoder, network and upload. -/
theorem claim_C1_witness :
    ∃ p : Prediction, predict net0 decodeAlways [] = .ok p ∧
      p.className ∈ CLASS_NAMES ∧ 0 ≤ p.confidence ∧ p.confidence ≤ 1 :=
  claim_C1_valid_image_label_and_confidence net0 decodeAlways [] img0 rfl

/-- C2 (behavior at the failing input): for every byte sequence the decoder
rejects, `predict` fails with `decodeError` and returns no prediction, but
the unhandled exception surfaces as HTTP 500, which is not a client error
status. -/
theorem claim_C2_undecodable_gives_500 (net : Net) (decode : Bytes → Option RGBImage)
    (bytes : Bytes) (h : decode bytes = none) :
    predict net decode bytes = .error .decodeError ∧
    responseStatus net decode bytes = 500 ∧
    ¬ isClientErrorStatus (responseStatus net decode bytes) := by
  have hp : predict net decode bytes = .error .decodeError := by
    unfold predict predictWith
    simp only [h]
  have hs : responseStatus net decode bytes = 500 := by
    unfold responseStatus
    rw [hp]
  refine ⟨hp, hs, ?_⟩
  rw [hs]
  exact fun hc => absurd hc.2 (by omega)

/-- Witness for C2's failing input: the decoder that rejects everything,
at the empty upload. -/
theorem claim_C2_witness :
    predict net0 decodeNever [] = .error .decodeError ∧
    responseStatus net0 decodeNever [] = 500 ∧
    ¬ isClientErrorStatus (responseStatus net0 decodeNever []) :=
  claim_C2_undecodable_gives_500 net0 decodeNever [] rfl

/-- C3: the selection step picks the index of the maximum probability with
ties broken by the lowest index, and on a forward pass producing logits
`[0.1, 5.0, 0.2, 0.3]` the handler returns label "Black Rot" with
confidence `softmax(logits)[1]`. -/
theorem claim_C3_argmax_selection :
    (∀ v : Fin 4 → ℝ,
      (∀ i, v i ≤ v (argmax4 v)) ∧ ∀ j, j < argmax4 v → v j < v (argmax4 v)) ∧
    ∀ (decode : Bytes → Option RGBImage) (bytes : Bytes) (img : RGBImage),
      decode bytes = some img →
      predict (fun _ => logitsEx) decode bytes = .ok ⟨"Black Rot", softmax4 logitsEx 1⟩ := by
  constructor
  · exact fun v => ⟨argmax4_isMax v, argmax4_first v⟩
  · intro decode bytes img h
    have hidx : argmax4 (probsOf (fun _ => logitsEx) img) = 1 := by
      have hpr : probsOf (fun _ => logitsEx) img = softmax4 logitsEx := rfl
      rw [hpr, argmax4_softmax, argmax4_logitsEx]
    rw [predict_some (fun _ => logitsEx) decode bytes img h, hidx]
    rfl

/-- Witness for C3 at a concrete decoder and upload. -/
theorem claim_C3_witness :
    predict (fun _ => logitsEx) decodeAlways [] = .ok ⟨"Black Rot", softmax4 logitsEx 1⟩ :=
  claim_C3_argmax_selection.2 decodeAlways [] img0 rfl

/-- C4: for every logit vector, the softmax step computes
`exp(logit_i) / Σ_j exp(logit_j)` and the resulting probabilities sum to 1. -/
theorem claim_C4_softmax_distribution (l : Fin 4 → ℝ) :
    (∀ i, softmax4 l i = Real.exp (l i) / ∑ j : Fin 4, Real.exp (l j)) ∧
    ∑ i : Fin 4, softmax4 l i = 1 :=
  ⟨fun _ => rfl, softmax4_sum l⟩

/-- C5: the handler is deterministic: two invocations against the same
shared state with byte-for-byte identical uploads give identical results. -/
theorem claim_C5_deterministic (st : ServerState) (decode : Bytes → Option RGBImage)
    (b1 b2 : Bytes) (h : b1 = b2) :
    (handleRequest st decode b1).2 = (handleRequest st decode b2).2 := by
  rw [h]

/-- Witness for C5 at the concrete state and upload. -/
theorem claim_C5_witness :
    (handleRequest state0 decodeAlways []).2 = (handleRequest state0 decodeAlways []).2 :=
  claim_C5_deterministic state0 decodeAlways [] [] rfl

/-- C6: a single-pixel solid-color image, resized to 224 × 224 and
normalized, yields a tensor in which every pixel's channel-`c` value is
`(pixel_value/255 - mean_c) / stddev_c`. -/
theorem claim_C6_solid_pixel_normalization (v : Fin 3 → ℕ) (hv : ∀ c, v c ≤ 255)
    (i j : Fin 224) (c : Fin 3) :
    transform (solidOnePixel v) i j c = ((v c : ℚ) / 255 - meanC c) / stdC c := by
  simp only [transform, transformWith, resize]
  rw [sampleBilinear_solid, roundClamp_natCast _ (hv c)]

/-- Witness for C6 at the solid gray pixel and the tensor's corner entry. -/
theorem claim_C6_witness :
    (∀ c, vGray c ≤ 255) ∧
    transform (solidOnePixel vGray) 0 0 0 = (((100 : ℕ) : ℚ) / 255 - meanC 0) / stdC 0 :=
  ⟨fun c => by unfold vGray; omega,
    claim_C6_solid_pixel_normalization vGray (fun c => by unfold vGray; omega) 0 0 0⟩

/-- C7: if the parameter file's final layer width differs from
`len(CLASS_NAMES)`, startup fails with the shape-mismatch error and no
request is ever served. -/
theorem claim_C7_startup_shape_mismatch (sd : StateDict)
    (h : sd.finalWidth ≠ CLASS_NAMES.length) :
    startup sd = .error .shapeMismatch ∧
    ∀ (decode : Bytes → Option RGBImage) (bytes : Bytes),
      serveRequest (startup sd) decode bytes = none := by
  have hs : startup sd = .error .shapeMismatch := by
    unfold startup
    rw [if_neg]
    exact fun hw => h (hw.trans rfl)
  refine ⟨hs, fun decode bytes => ?_⟩
  unfold serveRequest
  rw [hs]

/-- Witness for C7 at a parameter file of final width 5. -/
theorem claim_C7_witness :
    startup sd5 = .error .shapeMismatch ∧
    ∀ (decode : Bytes → Option RGBImage) (bytes : Bytes),
      serveRequest (startup sd5) decode bytes = none :=
  claim_C7_startup_shape_mismatch sd5 (by decide)

/-- C8: `len(CLASS_NAMES) = NUM_CLASSES` holds, the class-name lookup at
any arg-max index over the model's output classes succeeds, and the handler
never fails with the index-out-of-range error: it either rejects the
decode or returns a prediction. -/
theorem claim_C8_classnames_invariant :
    CLASS_NAMES.length = NUM_CLASSES ∧
    (∀ probs : Fin 4 → ℝ,
      CLASS_NAMES.get? (argmax4 probs).1 = some (classNameAt (argmax4 probs))) ∧
    ∀ (net : Net) (decode : Bytes → Option RGBImage) (bytes : Bytes),
      predict net decode bytes = .error .decodeError ∨
      ∃ p, predict net decode bytes = .ok p := by
  refine ⟨rfl, fun probs => ?_, fun net decode bytes => ?_⟩
  · exact List.get?_eq_get (l := CLASS_NAMES) (argmax4 probs).isLt
  · cases hd : decode bytes with
    | none =>
      left
      unfold predict predictWith
      simp only [hd]
    | some img =>
      right
      exact ⟨_, predict_some net decode bytes img hd⟩

/-- C9: a request step leaves the shared state — the loaded model, the
class names and the preprocessing configuration — unchanged, whether the
handler succeeds or fails. -/
theorem claim_C9_no_shared_state_mutation (st : ServerState)
    (decode : Bytes → Option RGBImage) (bytes : Bytes) :
    (handleRequest st decode bytes).1 = st ∧
    (handleRequest st decode bytes).1.net = st.net ∧
    (handleRequest st decode bytes).1.classNames = st.classNames ∧
    (handleRequest st decode bytes).1.m = st.m ∧
    (handleRequest st decode bytes).1.s = st.s :=
  ⟨rfl, rfl, rfl, rfl, rfl⟩

/-- C10: on every decoded input, the returned confidence is the softmax
probability at the arg-max index, and it dominates every class
probability of that input. -/
theorem claim_C10_confidence_is_max (net : Net) (decode : Bytes → Option RGBImage)
    (bytes : Bytes) (img : RGBImage) (h : decode bytes = some img) :
    ∃ p : Prediction, predict net decode bytes = .ok p ∧
      p.confidence = probsOf net img (argmax4 (probsOf net img)) ∧
      ∀ i : Fin 4, probsOf net img i ≤ p.confidence :=
  ⟨_, predict_some net decode bytes img h, rfl,
    fun i => argmax4_isMax (probsOf net img) i⟩

/-- Witness for C10 at the concrete decoder, network and upload. -/
theorem claim_C10_witness :
    ∃ p : Prediction, predict net0 decodeAlways [] = .ok p ∧
      p.confidence = probsOf net0 img0 (argmax4 (probsOf net0 img0)) ∧
      ∀ i : Fin 4, probsOf net0 img0 i ≤ p.confidence :=
  claim_C10_confidence_is_max net0 decodeAlways [] img0 rfl

end Treecovery
